import Mathlib

/-!
Verification of the Employee Attendance Tracker backend
(src/backend/server.js) against its specification.

The service is a CRUD HTTP API over a single MySQL table `Attendance`.
We embed the data model and the request handlers shallowly: the table is a
list of records plus an auto-increment counter, each handler is a pure
function from a request and a database state to a response and a new state.
SQL statement semantics issued by the handlers (exact-match WHERE clauses,
LIKE patterns, ORDER BY) are modelled directly; string comparison is
modelled as exact (binary collation).
-/

namespace AttendanceTracker

/-- One row of the `Attendance` table:
`id INT AUTO_INCREMENT PRIMARY KEY, employeeName VARCHAR, employeeID VARCHAR,
date DATE, status ENUM('Present','Absent'), createdAt TIMESTAMP`.
Dates are kept as their string form (MySQL DATE order coincides with the
lexicographic order of the YYYY-MM-DD form); createdAt is a numeric
timestamp. -/
structure Record where
  id : Nat
  employeeName : String
  employeeID : String
  date : String
  status : String
  createdAt : Nat
deriving DecidableEq, Repr

/-- The database state: the rows of the `Attendance` table plus the
AUTO_INCREMENT counter for `id` (MySQL starts it at 1). -/
structure DBState where
  rows : List Record
  nextId : Nat
deriving DecidableEq, Repr

/-- The state right after the schema bootstrap creates the empty table. -/
def initialState : DBState := { rows := [], nextId := 1 }

/-- JavaScript truthiness test used by the handlers on request fields
(`!employeeName`, `if (date)`): a field is falsy when absent (undefined)
or the empty string. -/
def falsy : Option String → Bool
  | none => true
  | some s => s == ""

/-- The JSON body of POST /api/attendance; each field may be absent. -/
structure CreateRequest where
  employeeName : Option String
  employeeID : Option String
  date : Option String
  status : Option String
deriving DecidableEq, Repr

/-- Response of POST /api/attendance: 201 with the generated id, or a
400 client error with a message. -/
inductive PostResponse where
  | created (id : Nat)
  | badRequest (error : String)
deriving DecidableEq, Repr

/-- HTTP status code of a POST /api/attendance response. -/
def PostResponse.statusCode : PostResponse → Nat
  | .created _ => 201
  | .badRequest _ => 400

/-- The row the insert statement adds for a validated request: the generated
id is the AUTO_INCREMENT counter, createdAt defaults to the current time. -/
def insertedRecord (req : CreateRequest) (now : Nat) (s : DBState) : Record :=
  { id := s.nextId
    employeeName := req.employeeName.getD ""
    employeeID := req.employeeID.getD ""
    date := req.date.getD ""
    status := req.status.getD ""
    createdAt := now }

/-- Handler of POST /api/attendance: validates that all four fields are
truthy and the status is Present or Absent, runs the duplicate check
`SELECT * FROM Attendance WHERE employeeID = ? AND date = ?`, and on
success executes the INSERT and answers 201 with the generated id. -/
def postAttendance (req : CreateRequest) (now : Nat) (s : DBState) :
    PostResponse × DBState :=
  if falsy req.employeeName || falsy req.employeeID ||
      falsy req.date || falsy req.status then
    (.badRequest "All fields are required", s)
  else if !(req.status.getD "" == "Present" || req.status.getD "" == "Absent") then
    (.badRequest "Status must be Present or Absent", s)
  else if (s.rows.filter (fun r =>
      r.employeeID == req.employeeID.getD "" && r.date == req.date.getD "")).length > 0 then
    (.badRequest "Attendance already recorded for this employee on the selected date", s)
  else
    (.created s.nextId,
     { rows := s.rows ++ [insertedRecord req now s], nextId := s.nextId + 1 })

/-- Response of DELETE /api/attendance/:id: 200 on success, 404 when the
DELETE statement affected no row. -/
inductive DeleteResponse where
  | ok
  | notFound
deriving DecidableEq, Repr

/-- HTTP status code of a DELETE /api/attendance/:id response. -/
def DeleteResponse.statusCode : DeleteResponse → Nat
  | .ok => 200
  | .notFound => 404

/-- Handler of DELETE /api/attendance/:id: runs
`DELETE FROM Attendance WHERE id = ?`; answers 404 when affectedRows = 0,
200 otherwise. -/
def deleteAttendance (i : Nat) (s : DBState) : DeleteResponse × DBState :=
  if (s.rows.filter (fun r => r.id == i)).length == 0 then
    (.notFound, s)
  else
    (.ok, { s with rows := s.rows.filter (fun r => r.id != i) })

/-- The ordering `ORDER BY date DESC, createdAt DESC` used by the list and
filter endpoints: a may precede b when its date is larger, or the dates are
equal and its createdAt is at least that of b. -/
def recOrd (a b : Record) : Prop :=
  b.date < a.date ∨ (b.date = a.date ∧ b.createdAt ≤ a.createdAt)

instance : DecidableRel recOrd := fun a b => by
  unfold recOrd; infer_instance

instance : IsTotal Record recOrd where
  total a b := by
    rcases lt_trichotomy a.date b.date with h | h | h
    · exact Or.inr (Or.inl h)
    · rcases le_total b.createdAt a.createdAt with hc | hc
      · exact Or.inl (Or.inr ⟨h.symm, hc⟩)
      · exact Or.inr (Or.inr ⟨h, hc⟩)
    · exact Or.inl (Or.inl h)

instance : IsTrans Record recOrd where
  trans a b c hab hbc := by
    rcases hab with h1 | ⟨h1, h1c⟩
    · rcases hbc with h2 | ⟨h2, h2c⟩
      · exact Or.inl (lt_trans h2 h1)
      · exact Or.inl (h2 ▸ h1)
    · rcases hbc with h2 | ⟨h2, h2c⟩
      · exact Or.inl (h1 ▸ h2)
      · exact Or.inr ⟨h2.trans h1, le_trans h2c h1c⟩

/-- Handler of GET /api/attendance:
`SELECT * FROM Attendance ORDER BY date DESC, createdAt DESC`. -/
def listAll (s : DBState) : List Record :=
  List.insertionSort recOrd s.rows

/-- Semantics of the MySQL LIKE operator (default escape character, binary
collation), applied to the pattern and the text as character lists:
% matches any sequence, _ matches exactly one character, a backslash
escapes the next pattern character; any other character matches itself. -/
def likeMatches : List Char → List Char → Bool
  | [], t => t.isEmpty
  | '%' :: ps, t => (List.range (t.length + 1)).any fun i => likeMatches ps (t.drop i)
  | '_' :: ps, t =>
    match t with
    | [] => false
    | _ :: ts => likeMatches ps ts
  | '\\' :: p :: ps, t =>
    match t with
    | [] => false
    | x :: ts => p == x && likeMatches ps ts
  | c :: ps, t =>
    match t with
    | [] => false
    | x :: ts => c == x && likeMatches ps ts

/-- `text LIKE pat` on strings. -/
def sqlLike (pat text : String) : Bool :=
  likeMatches pat.toList text.toList

/-- Substring containment: some contiguous run of hay equals needle.
This is the reading of the specification's "substring match". -/
def substrB (needle hay : String) : Bool :=
  (List.range (hay.toList.length + 1)).any fun i =>
    needle.toList.isPrefixOf (hay.toList.drop i)

/-- The query parameters of GET /api/attendance/filter; each is optional. -/
structure FilterQuery where
  date : Option String
  employeeName : Option String
  employeeID : Option String
deriving DecidableEq, Repr

/-- The WHERE clause the filter endpoint builds: starting from 1=1 it
appends, for each truthy parameter, `date = ?`, `employeeName LIKE ?` with
pattern %employeeName%, `employeeID LIKE ?` with pattern %employeeID%. -/
def filterPred (q : FilterQuery) (r : Record) : Bool :=
  (if falsy q.date then true else r.date == q.date.getD "") &&
  (if falsy q.employeeName then true
   else sqlLike ("%" ++ q.employeeName.getD "" ++ "%") r.employeeName) &&
  (if falsy q.employeeID then true
   else sqlLike ("%" ++ q.employeeID.getD "" ++ "%") r.employeeID)

/-- Handler of GET /api/attendance/filter: the rows satisfying the built
WHERE clause, ordered by date DESC, createdAt DESC. -/
def filterAttendance (q : FilterQuery) (s : DBState) : List Record :=
  List.insertionSort recOrd (s.rows.filter (filterPred q))

/-- The filter condition in the words of the specification (for comparison
with filterPred): date by exact match, employeeName and employeeID by
substring containment, supplied filters combined with AND. -/
def specFilterPred (q : FilterQuery) (r : Record) : Bool :=
  (if falsy q.date then true else r.date == q.date.getD "") &&
  (if falsy q.employeeName then true
   else substrB (q.employeeName.getD "") r.employeeName) &&
  (if falsy q.employeeID then true
   else substrB (q.employeeID.getD "") r.employeeID)

/-- A parameter string free of the LIKE metacharacters % _ and backslash. -/
def noWildcards (s : String) : Bool :=
  s.toList.all fun c => c ≠ '%' && c ≠ '_' && c ≠ '\\'

/-- The sequential operations of the service that touch the table. -/
inductive Op where
  | create (req : CreateRequest) (now : Nat)
  | deleteById (i : Nat)
  | list
  | filter (q : FilterQuery)

/-- The state after executing one operation (List and Filter are
read-only). -/
def applyOp : Op → DBState → DBState
  | .create req now, s => (postAttendance req now s).2
  | .deleteById i, s => (deleteAttendance i s).2
  | .list, s => s
  | .filter _, s => s

/-- At most one row per (employeeID, date) pair. -/
def UniqueEmpDate (rows : List Record) : Prop :=
  rows.Pairwise fun a b => ¬(a.employeeID = b.employeeID ∧ a.date = b.date)

instance (rows : List Record) : Decidable (UniqueEmpDate rows) := by
  unfold UniqueEmpDate; infer_instance

/-- The JSON body of the GET /api/health response. -/
structure HealthResponse where
  status : String
  message : String
  timestamp : String
  database : String
  version : String
deriving DecidableEq, Repr

/-- Handler of GET /api/health: a static body, no database access.  The
reachability of the database (dbReachable) is a parameter precisely to
state that the handler ignores it. -/
def healthHandler (_dbReachable : Bool) (t : String) : Nat × HealthResponse :=
  (200,
   { status := "OK"
     message := "Server is running"
     timestamp := t
     database := "Connected"
     version := "1.0.0" })

/-- The schema bootstrap: connect to the server, CREATE DATABASE IF NOT
EXISTS, then CREATE TABLE IF NOT EXISTS; each step may fail, and a failure
aborts the sequence (the thrown error propagates). -/
def initializeDatabase (connectRes createDbRes createTableRes : Except String Unit) :
    Except String Unit := do
  connectRes
  createDbRes
  createTableRes

/-- Outcome of startServer: the HTTP listener is accepting connections, or
the process exited with the given code. -/
inductive StartOutcome where
  | listening
  | exited (code : Nat)
deriving DecidableEq, Repr

/-- startServer: awaits initializeDatabase, then calls app.listen; on any
bootstrap error it runs process.exit(1) and never listens. -/
def startServer (connectRes createDbRes createTableRes : Except String Unit) :
    StartOutcome :=
  match initializeDatabase connectRes createDbRes createTableRes with
  | .ok _ => .listening
  | .error _ => .exited 1

/-! Concrete fixtures used to instantiate the theorems below. -/

/-- The example request of the specification. -/
def reqJane : CreateRequest :=
  { employeeName := some "Jane Doe", employeeID := some "E100"
    date := some "2024-01-05", status := some "Present" }

/-- A stored row matching reqJane. -/
def rowA : Record :=
  { id := 1, employeeName := "Jane Doe", employeeID := "E100"
    date := "2024-01-05", status := "Present", createdAt := 7 }

/-- A one-row database state. -/
def stateA : DBState := { rows := [rowA], nextId := 2 }

/-- A request whose status field is absent. -/
def reqNoStatus : CreateRequest :=
  { employeeName := some "Jane Doe", employeeID := some "E100"
    date := some "2024-01-05", status := none }

/-- A filter query whose employeeID parameter is the LIKE wildcard _. -/
def qUnderscore : FilterQuery :=
  { date := none, employeeName := none, employeeID := some "_" }

/-- A filter query on the employeeName substring an. -/
def qNameAn : FilterQuery :=
  { date := none, employeeName := some "an", employeeID := none }

/-- A filter query with one absent and two empty parameters. -/
def qEmpty : FilterQuery :=
  { date := none, employeeName := some "", employeeID := some "" }

/-! Helper lemmas. -/

theorem anyCongrOfMem {α : Type} {l : List α} {f g : α → Bool}
    (h : ∀ a ∈ l, f a = g a) : l.any f = l.any g := by
  induction l with
  | nil => rfl
  | cons a l ih =>
    simp only [List.any_cons, h a (List.mem_cons_self a l)]
    rw [ih fun x hx => h x (List.mem_cons_of_mem a hx)]

theorem likeMatches_percent_cons (ps : List Char) (t : List Char) :
    likeMatches ('%' :: ps) t =
      (List.range (t.length + 1)).any fun i => likeMatches ps (t.drop i) := by
  simp [likeMatches]

theorem likeMatches_other_nil {c : Char} (hc1 : c ≠ '%') (hc2 : c ≠ '_') (hc3 : c ≠ '\\')
    (ps : List Char) : likeMatches (c :: ps) [] = false := by
  simp [likeMatches, hc1, hc2, hc3]

theorem likeMatches_other_cons {c : Char} (hc1 : c ≠ '%') (hc2 : c ≠ '_') (hc3 : c ≠ '\\')
    (ps : List Char) (x : Char) (ts : List Char) :
    likeMatches (c :: ps) (x :: ts) = (c == x && likeMatches ps ts) := by
  simp [likeMatches, hc1, hc2, hc3]

theorem likeMatches_literal_append {p : List Char}
    (hp : ∀ c ∈ p, c ≠ '%' ∧ c ≠ '_' ∧ c ≠ '\\') (t : List Char) :
    likeMatches (p ++ ['%']) t = p.isPrefixOf t := by
  induction p generalizing t with
  | nil =>
    have hl : likeMatches ([] ++ ['%']) t = true := by
      rw [List.nil_append, likeMatches_percent_cons]
      refine List.any_eq_true.mpr ⟨t.length, List.mem_range.mpr (by omega), ?_⟩
      show likeMatches [] (t.drop t.length) = true
      rw [List.drop_length]
      rfl
    have hr : List.isPrefixOf ([] : List Char) t = true := by cases t <;> rfl
    rw [hl, hr]
  | cons c p ih =>
    obtain ⟨hc1, hc2, hc3⟩ := hp c (List.mem_cons_self _ _)
    have hp2 : ∀ x ∈ p, x ≠ '%' ∧ x ≠ '_' ∧ x ≠ '\\' :=
      fun x hx => hp x (List.mem_cons_of_mem _ hx)
    cases t with
    | nil =>
      rw [List.cons_append, likeMatches_other_nil hc1 hc2 hc3]
      rfl
    | cons x ts =>
      rw [List.cons_append, likeMatches_other_cons hc1 hc2 hc3, ih hp2]
      rfl

theorem sqlLike_noWildcards {n : String} (h : noWildcards n = true) (t : String) :
    sqlLike ("%" ++ n ++ "%") t = substrB n t := by
  have hp : ∀ c ∈ n.toList, c ≠ '%' ∧ c ≠ '_' ∧ c ≠ '\\' := by
    intro c hc
    have hcc := List.all_eq_true.mp h c hc
    simp only [Bool.and_eq_true, decide_eq_true_eq] at hcc
    exact ⟨hcc.1.1, hcc.1.2, hcc.2⟩
  have htl : ("%" ++ n ++ "%").toList = '%' :: (n.toList ++ ['%']) := by
    simp [String.toList]
  unfold sqlLike substrB
  rw [htl, likeMatches_percent_cons]
  exact anyCongrOfMem fun i _ => likeMatches_literal_append hp (t.toList.drop i)

theorem filterPred_eq_spec {q : FilterQuery}
    (hn : noWildcards (q.employeeName.getD "") = true)
    (hi : noWildcards (q.employeeID.getD "") = true) :
    filterPred q = specFilterPred q := by
  funext r
  unfold filterPred specFilterPred
  rw [sqlLike_noWildcards hn, sqlLike_noWildcards hi]

/-! The claims. -/

/-- C1: a Create request with all four fields present and non-empty, a
status in Present/Absent, and no existing record with the same
(employeeID, date), makes POST /api/attendance insert one record and
answer 201 with the generated positive integer id; the inserted record is
then returned by the list-all operation. -/
theorem c1_create_valid (req : CreateRequest) (now : Nat) (s : DBState)
    (h1 : falsy req.employeeName = false) (h2 : falsy req.employeeID = false)
    (h3 : falsy req.date = false) (h4 : falsy req.status = false)
    (h5 : req.status.getD "" = "Present" ∨ req.status.getD "" = "Absent")
    (h6 : ∀ r ∈ s.rows,
      ¬(r.employeeID = req.employeeID.getD "" ∧ r.date = req.date.getD ""))
    (h7 : 0 < s.nextId) :
    (postAttendance req now s).1 = .created s.nextId ∧
    (postAttendance req now s).1.statusCode = 201 ∧
    0 < s.nextId ∧
    (postAttendance req now s).2.rows = s.rows ++ [insertedRecord req now s] ∧
    insertedRecord req now s ∈ listAll (postAttendance req now s).2 := by
  have hval : (falsy req.employeeName || falsy req.employeeID ||
      falsy req.date || falsy req.status) = false := by
    simp [h1, h2, h3, h4]
  have hst : (req.status.getD "" == "Present" || req.status.getD "" == "Absent") = true := by
    rcases h5 with h | h <;> simp [h]
  have hdup : s.rows.filter (fun r =>
      r.employeeID == req.employeeID.getD "" && r.date == req.date.getD "") = [] := by
    rw [List.filter_eq_nil_iff]
    intro r hr
    simpa using h6 r hr
  have hres : postAttendance req now s =
      (.created s.nextId,
       { rows := s.rows ++ [insertedRecord req now s], nextId := s.nextId + 1 }) := by
    simp [postAttendance, hval, hst, hdup]
  refine ⟨by rw [hres], by rw [hres]; rfl, h7, by rw [hres], ?_⟩
  rw [hres]
  show insertedRecord req now s ∈ listAll _
  rw [listAll, List.mem_insertionSort]
  simp

/-- Witness for C1 at the specification's example request on the empty
initial state. -/
theorem c1_create_valid_witness :
    (postAttendance reqJane 7 initialState).1 = .created 1 ∧
    (postAttendance reqJane 7 initialState).1.statusCode = 201 ∧
    insertedRecord reqJane 7 initialState ∈ listAll (postAttendance reqJane 7 initialState).2 := by
  have h := c1_create_valid reqJane 7 initialState (by decide) (by decide)
    (by decide) (by decide) (Or.inl (by decide)) (by decide) (by decide)
  exact ⟨h.1, h.2.1, h.2.2.2.2⟩

/-- C2: the at-most-one-record-per-(employeeID, date) invariant holds in
the initial state and is preserved by every sequentially executed
operation; Create refuses to insert when a record with the same
employeeID and date exists. -/
theorem c2_unique_per_employee_date :
    UniqueEmpDate initialState.rows ∧
    ∀ (op : Op) (s : DBState), UniqueEmpDate s.rows → UniqueEmpDate (applyOp op s).rows := by
  constructor
  · exact List.Pairwise.nil
  · intro op s h
    cases op with
    | list => exact h
    | filter q => exact h
    | deleteById i =>
      show UniqueEmpDate (deleteAttendance i s).2.rows
      unfold deleteAttendance
      split
      · exact h
      · exact List.Pairwise.sublist (List.filter_sublist _) h
    | create req now =>
      show UniqueEmpDate (postAttendance req now s).2.rows
      unfold postAttendance
      split
      · exact h
      · split
        · exact h
        · split
          · exact h
          · rename_i hnot
            refine List.pairwise_append.mpr ⟨h, List.pairwise_singleton _ _, ?_⟩
            intro a ha b hb
            simp only [List.mem_singleton] at hb
            subst hb
            have h0 : (s.rows.filter (fun r =>
                r.employeeID == req.employeeID.getD "" && r.date == req.date.getD "")).length = 0 := by
              omega
            have hnil := List.length_eq_zero.mp h0
            have hfa := List.filter_eq_nil_iff.mp hnil a ha
            intro hcon
            apply hfa
            simp only [insertedRecord] at hcon
            simp [hcon.1, hcon.2]

/-- Witness for C2: the invariant holds on a one-row state and survives a
duplicate Create attempt. -/
theorem c2_unique_per_employee_date_witness :
    UniqueEmpDate stateA.rows ∧
    UniqueEmpDate (applyOp (Op.create reqJane 9) stateA).rows := by
  have h := c2_unique_per_employee_date
  exact ⟨by decide, h.2 (Op.create reqJane 9) stateA (by decide)⟩

/-- C3: a Create request with a missing or empty field, or a status outside
Present/Absent, makes POST /api/attendance answer 400 with an error
message and leave the table unchanged. -/
theorem c3_invalid_create (req : CreateRequest) (now : Nat) (s : DBState)
    (h : falsy req.employeeName = true ∨ falsy req.employeeID = true ∨
      falsy req.date = true ∨ falsy req.status = true ∨
      (req.status.getD "" ≠ "Present" ∧ req.status.getD "" ≠ "Absent")) :
    (postAttendance req now s).2 = s ∧
    (postAttendance req now s).1.statusCode = 400 ∧
    ∃ e, (postAttendance req now s).1 = .badRequest e := by
  by_cases hb : (falsy req.employeeName || falsy req.employeeID ||
      falsy req.date || falsy req.status) = true
  · have hres : postAttendance req now s = (.badRequest "All fields are required", s) := by
      simp [postAttendance, hb]
    rw [hres]
    exact ⟨rfl, rfl, _, rfl⟩
  · simp only [Bool.or_eq_true, not_or, Bool.not_eq_true] at hb
    obtain ⟨⟨⟨h1, h2⟩, h3⟩, h4⟩ := hb
    have hstat : req.status.getD "" ≠ "Present" ∧ req.status.getD "" ≠ "Absent" := by
      rcases h with h | h | h | h | h
      · rw [h1] at h; simp at h
      · rw [h2] at h; simp at h
      · rw [h3] at h; simp at h
      · rw [h4] at h; simp at h
      · exact h
    have hval : (falsy req.employeeName || falsy req.employeeID ||
        falsy req.date || falsy req.status) = false := by
      simp [h1, h2, h3, h4]
    have hst : (req.status.getD "" == "Present" || req.status.getD "" == "Absent") = false := by
      simp only [Bool.or_eq_false_iff, beq_eq_false_iff_ne, ne_eq]
      exact hstat
    have hres : postAttendance req now s =
        (.badRequest "Status must be Present or Absent", s) := by
      simp [postAttendance, hval, hst]
    rw [hres]
    exact ⟨rfl, rfl, _, rfl⟩

/-- Witness for C3 at a request whose status field is absent, on a one-row
state. -/
theorem c3_invalid_create_witness :
    (postAttendance reqNoStatus 3 stateA).2 = stateA ∧
    (postAttendance reqNoStatus 3 stateA).1.statusCode = 400 := by
  have h := c3_invalid_create reqNoStatus 3 stateA
    (Or.inr (Or.inr (Or.inr (Or.inl (by decide)))))
  exact ⟨h.1, h.2.1⟩

/-- C4: when a record with the same (employeeID, date) already exists, an
otherwise valid Create request answers 400 with the duplicate message and
leaves the table unchanged. -/
theorem c4_duplicate_create (req : CreateRequest) (now : Nat) (s : DBState)
    (h1 : falsy req.employeeName = false) (h2 : falsy req.employeeID = false)
    (h3 : falsy req.date = false) (h4 : falsy req.status = false)
    (h5 : req.status.getD "" = "Present" ∨ req.status.getD "" = "Absent")
    (hdup : ∃ r ∈ s.rows,
      r.employeeID = req.employeeID.getD "" ∧ r.date = req.date.getD "") :
    postAttendance req now s =
      (.badRequest "Attendance already recorded for this employee on the selected date", s) ∧
    (postAttendance req now s).1.statusCode = 400 := by
  have hval : (falsy req.employeeName || falsy req.employeeID ||
      falsy req.date || falsy req.status) = false := by
    simp [h1, h2, h3, h4]
  have hst : (req.status.getD "" == "Present" || req.status.getD "" == "Absent") = true := by
    rcases h5 with h | h <;> simp [h]
  obtain ⟨r, hr, hre, hrd⟩ := hdup
  have hmem : r ∈ s.rows.filter (fun r =>
      r.employeeID == req.employeeID.getD "" && r.date == req.date.getD "") :=
    List.mem_filter.mpr ⟨hr, by simp [hre, hrd]⟩
  have hlen : 0 < (s.rows.filter (fun r =>
      r.employeeID == req.employeeID.getD "" && r.date == req.date.getD "")).length :=
    List.length_pos.mpr (List.ne_nil_of_mem hmem)
  have hres : postAttendance req now s =
      (.badRequest "Attendance already recorded for this employee on the selected date", s) := by
    simp [postAttendance, hval, hst, hlen]
  exact ⟨hres, by rw [hres]; rfl⟩

/-- Witness for C4: re-submitting the example request against the state
already holding its row. -/
theorem c4_duplicate_create_witness :
    postAttendance reqJane 9 stateA =
      (.badRequest "Attendance already recorded for this employee on the selected date", stateA) := by
  have h := c4_duplicate_create reqJane 9 stateA (by decide) (by decide)
    (by decide) (by decide) (Or.inl (by decide)) ⟨rowA, by decide, by decide, by decide⟩
  exact h.1

/-- C5: DELETE /api/attendance/:id removes exactly the rows carrying that
id and answers 200 when such a row exists, after which no listing (list-all
or any filter) returns a row with that id; when no row carries the id it
answers 404 and the table is unchanged. -/
theorem c5_delete_by_id (i : Nat) (s : DBState) :
    ((∃ r ∈ s.rows, r.id = i) →
      (deleteAttendance i s).1 = .ok ∧
      (deleteAttendance i s).1.statusCode = 200 ∧
      (deleteAttendance i s).2.rows = s.rows.filter (fun r => r.id != i) ∧
      (∀ r ∈ listAll (deleteAttendance i s).2, r.id ≠ i) ∧
      (∀ q : FilterQuery, ∀ r ∈ filterAttendance q (deleteAttendance i s).2, r.id ≠ i)) ∧
    ((∀ r ∈ s.rows, r.id ≠ i) →
      (deleteAttendance i s).1 = .notFound ∧
      (deleteAttendance i s).1.statusCode = 404 ∧
      (deleteAttendance i s).2 = s) := by
  constructor
  · rintro ⟨r, hr, hri⟩
    have hne : s.rows.filter (fun r => r.id == i) ≠ [] :=
      List.ne_nil_of_mem (List.mem_filter.mpr ⟨hr, by simp [hri]⟩)
    have hcond : ¬(((s.rows.filter (fun r => r.id == i)).length == 0) = true) := by
      simp [List.length_eq_zero, hne]
    have hres : deleteAttendance i s =
        (.ok, { s with rows := s.rows.filter (fun r => r.id != i) }) := by
      unfold deleteAttendance
      rw [if_neg hcond]
    rw [hres]
    refine ⟨rfl, rfl, rfl, ?_, ?_⟩
    · intro r2 hr2
      rw [listAll, List.mem_insertionSort] at hr2
      have h2 := (List.mem_filter.mp hr2).2
      simpa using h2
    · intro q r2 hr2
      rw [filterAttendance, List.mem_insertionSort] at hr2
      have h2 := (List.mem_filter.mp (List.mem_filter.mp hr2).1).2
      simpa using h2
  · intro hall
    have hnil : s.rows.filter (fun r => r.id == i) = [] :=
      List.filter_eq_nil_iff.mpr (fun r hr => by simp [hall r hr])
    have hcond : (((s.rows.filter (fun r => r.id == i)).length == 0) = true) := by
      simp [hnil]
    have hres : deleteAttendance i s = (.notFound, s) := by
      unfold deleteAttendance
      rw [if_pos hcond]
    rw [hres]
    exact ⟨rfl, rfl, rfl⟩

/-- Witness for C5: deleting id 1 from the one-row state answers 200;
deleting id 5 answers 404 and leaves the state unchanged. -/
theorem c5_delete_by_id_witness :
    (deleteAttendance 1 stateA).1.statusCode = 200 ∧
    (deleteAttendance 5 stateA).1.statusCode = 404 ∧
    (deleteAttendance 5 stateA).2 = stateA := by
  have h1 := (c5_delete_by_id 1 stateA).1 ⟨rowA, by decide, by decide⟩
  have h2 := (c5_delete_by_id 5 stateA).2 (by decide)
  exact ⟨h1.2.1, h2.2.1, h2.2.2⟩

/-- C6: GET /api/attendance returns all stored records, ordered by date
descending and, within equal dates, by createdAt descending (the order
recOrd). -/
theorem c6_list_all_sorted (s : DBState) :
    List.Perm (listAll s) s.rows ∧ List.Sorted recOrd (listAll s) :=
  ⟨List.perm_insertionSort recOrd s.rows, List.sorted_insertionSort recOrd s.rows⟩

/-- C7 counterexample: with the filter parameter employeeID set to the one
character string _, the filter returns the stored row whose employeeID
E100 does not contain _ as a substring, because the parameter is
interpolated into a LIKE pattern and _ is a LIKE wildcard.  So the Filter
operation does not implement plain substring containment for every
parameter. -/
theorem c7_filter_substring_counterexample :
    filterAttendance qUnderscore stateA = [rowA] ∧
    substrB "_" rowA.employeeID = false ∧
    specFilterPred qUnderscore rowA = false ∧
    stateA.rows.filter (specFilterPred qUnderscore) = [] := by
  refine ⟨by decide, by decide, by decide, by decide⟩

/-- C7 (amended): whenever each supplied employeeName and employeeID
parameter contains no LIKE metacharacter (% _ or backslash), Filter
returns exactly the records satisfying the AND of the supplied conditions,
with date an exact match and the name fields substring containment, in
the list-all ordering. -/
theorem c7_filter_and_of_conditions (q : FilterQuery) (s : DBState)
    (hn : noWildcards (q.employeeName.getD "") = true)
    (hi : noWildcards (q.employeeID.getD "") = true) :
    List.Perm (filterAttendance q s) (s.rows.filter (specFilterPred q)) ∧
    List.Sorted recOrd (filterAttendance q s) := by
  constructor
  · rw [filterAttendance, filterPred_eq_spec hn hi]
    exact List.perm_insertionSort recOrd _
  · exact List.sorted_insertionSort recOrd _

/-- Witness for C7 at a wildcard-free employeeName parameter on the
one-row state. -/
theorem c7_filter_and_of_conditions_witness :
    noWildcards "an" = true ∧
    List.Perm (filterAttendance qNameAn stateA) (stateA.rows.filter (specFilterPred qNameAn)) ∧
    List.Sorted recOrd (filterAttendance qNameAn stateA) := by
  have h := c7_filter_and_of_conditions qNameAn stateA (by decide) (by decide)
  exact ⟨by decide, h.1, h.2⟩

/-- C8: GET /api/health answers 200 with a static OK status, the current
timestamp and the version, and its output is independent of the
reachability of the database (the handler performs no database call). -/
theorem c8_health_static (a b : Bool) (t : String) :
    healthHandler a t = healthHandler b t ∧
    (healthHandler a t).1 = 200 ∧
    (healthHandler a t).2.status = "OK" ∧
    (healthHandler a t).2.timestamp = t ∧
    (healthHandler a t).2.version = "1.0.0" :=
  ⟨rfl, rfl, rfl, rfl, rfl⟩

/-- C9: startServer listens exactly when every schema-bootstrap step
(connect, create database, create table) succeeded; on any bootstrap
failure the outcome is process exit with code 1, which is non-zero, and
the listener never starts. -/
theorem c9_bootstrap_before_listen (c d t : Except String Unit) :
    (startServer c d t = .listening ↔ c = .ok () ∧ d = .ok () ∧ t = .ok ()) ∧
    (startServer c d t = .listening ∨ startServer c d t = .exited 1) ∧
    (∀ code, startServer c d t = .exited code → code ≠ 0) := by
  rcases c with e | ⟨⟩ <;> rcases d with f | ⟨⟩ <;> rcases t with g | ⟨⟩ <;>
    simp [startServer, initializeDatabase, Bind.bind, Except.bind]

/-- Witness for C9: a failing connect step exits with code 1, which is
non-zero. -/
theorem c9_bootstrap_before_listen_witness :
    startServer (Except.error "boom") (Except.ok ()) (Except.ok ()) = .exited 1 ∧
    (1 : Nat) ≠ 0 := by
  have h := c9_bootstrap_before_listen (Except.error "boom") (Except.ok ()) (Except.ok ())
  have he : startServer (Except.error "boom") (Except.ok ()) (Except.ok ()) = .exited 1 := rfl
  exact ⟨he, h.2.2 1 he⟩

/-- C10: a Filter request whose parameters are all absent or empty strings
returns exactly the list-all result: an empty-string parameter is falsy in
the handler and contributes no condition. -/
theorem c10_empty_filter_is_list_all (q : FilterQuery) (s : DBState)
    (hd : falsy q.date = true) (hn : falsy q.employeeName = true)
    (hi : falsy q.employeeID = true) :
    filterAttendance q s = listAll s := by
  have hall : s.rows.filter (filterPred q) = s.rows :=
    List.filter_eq_self.mpr fun r _ => by simp [filterPred, hd, hn, hi]
  rw [filterAttendance, hall, listAll]

/-- Witness for C10 at a query with one absent and two empty parameters. -/
theorem c10_empty_filter_is_list_all_witness :
    filterAttendance qEmpty stateA = listAll stateA :=
  c10_empty_filter_is_list_all qEmpty stateA (by decide) (by decide) (by decide)

end AttendanceTracker
